import Mathlib

/-!
Shallow embedding of the ESP codec in `src/codecs/basic/cd_esp.cc`:
the `EspCodec::decode` routine, the peg-count bookkeeping (`CdPegs`,
`peg_names`) and the `stats` snapshot hook, together with theorems about
them.

Bytes are `Fin 256` (C `uint8_t`); lengths and counters are `Nat` with
explicit `% 2 ^ 16` where the C code narrows to `uint16_t`; pointers are
absolute byte addresses (`Nat`).  The external collaborators consulted by
`decode` — the `ScESPDecoding()` configuration flag and
`PacketManager::has_codec` — are passed in as an environment.  Byte reads
go through `List.get?` and fail closed with `none`.
-/

/-- `PegCount` (an unsigned 64-bit counter in the source), modelled as `Nat`. -/
abbrev PegCount := Nat

/-- `struct CdPegs { PegCount processed = 0; PegCount discards = 0; }`. -/
structure CdPegs where
  processed : PegCount := 0
  discards : PegCount := 0
deriving DecidableEq

/-- The `peg_names` vector from the source, verbatim. -/
def peg_names : List String := ["NameCodec_processed", "NameCodec_discards"]

/-- The slice of `Packet` the ESP codec touches: the current payload view
(`data` as an absolute byte address, `dsize` a `uint16_t`) and the
`packet_flags` word. -/
structure Packet where
  data : Nat
  dsize : Nat
  packet_flags : Nat
deriving DecidableEq

/-- Modelled from the spec: `PKT_TRUST` is a single-bit mask OR-ed into
`packet_flags`; it is defined in a header that is not under `src/`.  Only
its distinctness from `PKT_UNSURE_ENCAP` is used. -/
def PKT_TRUST : Nat := 2 ^ 28

/-- Modelled from the spec: `PKT_UNSURE_ENCAP` is a single-bit mask OR-ed
into `packet_flags`; it is defined in a header that is not under `src/`. -/
def PKT_UNSURE_ENCAP : Nat := 2 ^ 27

/-- `const uint16_t ESP_PROT_ID = 50`. -/
def ESP_PROT_ID : Nat := 50

/-- `const uint32_t ESP_HEADER_LEN = 8`. -/
def ESP_HEADER_LEN : Nat := 8

/-- `const uint32_t ESP_AUTH_DATA_LEN = 12`. -/
def ESP_AUTH_DATA_LEN : Nat := 12

/-- `const uint32_t ESP_TRAILER_LEN = 2`. -/
def ESP_TRAILER_LEN : Nat := 2

/-- The one decoder diagnostic the codec can emit. -/
inductive CodecEvent where
  | DECODE_ESP_HEADER_TRUNC
deriving DecidableEq

/-- External collaborators consulted by `decode`: the `ScESPDecoding()`
configuration flag and `PacketManager::has_codec`. -/
structure DecodeEnv where
  espDecoding : Bool
  hasCodec : Int → Bool

/-- The observable outcome of one `decode` call: the returned `bool`, the
packet after mutation, the final values of the two by-reference
out-parameters `lyr_len` and `next_prot_id`, the diagnostic events emitted
during the call, and the peg counters after the call. -/
structure DecodeResult where
  ret : Bool
  p : Packet
  lyr_len : Nat
  next_prot_id : Int
  events : List CodecEvent
  counts : CdPegs

/-- C narrowing cast `(uint16_t) n`. -/
def u16 (n : Nat) : Nat := n % 65536

/-- The C expression `(u_short) len - lyr_len`: both operands are promoted
to `int`, subtracted, and the result is stored into the `uint16_t` field
`dsize` (reduction modulo `2 ^ 16`). -/
def dsizeCast (len lyr : Nat) : Nat :=
  (((u16 len : Int) - (lyr : Int)) % 65536).toNat

/-- `EspCodec::decode` from `src/codecs/basic/cd_esp.cc`.

`base` is the address `raw_pkt`; `bytes` are the bytes stored in the
buffer starting at `base`; `len` is the `len` argument; `lyr_len0` and
`next_prot_id0` are the incoming values of the by-reference out-parameters
(returned unchanged on paths that never assign them).  The two tail reads
`*(esp_payload + len - lyr_len)` and `*(esp_payload + len + 1 - lyr_len)`
are bounds-checked; an out-of-bounds read fails closed with `none`.
The source never touches the `counts` pegs inside `decode`, so they are
threaded through unchanged. -/
def EspCodec.decode (env : DecodeEnv) (base : Nat) (bytes : List (Fin 256))
    (len : Nat) (p : Packet) (lyr_len0 : Nat) (next_prot_id0 : Int)
    (counts : CdPegs) : Option DecodeResult :=
  if env.espDecoding = false then
    some { ret := false, p := p, lyr_len := lyr_len0,
           next_prot_id := next_prot_id0, events := [], counts := counts }
  else if len < ESP_HEADER_LEN + ESP_AUTH_DATA_LEN + ESP_TRAILER_LEN then
    some { ret := false,
           p := { p with data := base, dsize := u16 len },
           lyr_len := lyr_len0, next_prot_id := next_prot_id0,
           events := [CodecEvent.DECODE_ESP_HEADER_TRUNC], counts := counts }
  else
    -- esp_payload = raw_pkt + ESP_HEADER_LEN; lyr_len = 8 + 12 + 2
    let lyr_len := ESP_HEADER_LEN + ESP_AUTH_DATA_LEN + ESP_TRAILER_LEN
    match bytes.get? (ESP_HEADER_LEN + len - lyr_len),
          bytes.get? (ESP_HEADER_LEN + len + 1 - lyr_len) with
    | some pad_length, some nextb =>
      let next_prot_id : Int := ((nextb : Nat) : Int)
      if (pad_length : Nat) < len then
        let lyr_len2 := lyr_len + (pad_length : Nat)
        if env.hasCodec next_prot_id = false then
          some { ret := true,
                 p := { p with
                        packet_flags := p.packet_flags ||| PKT_UNSURE_ENCAP },
                 lyr_len := lyr_len2, next_prot_id := next_prot_id,
                 events := [], counts := counts }
        else
          some { ret := true,
                 p := { p with
                        packet_flags := p.packet_flags ||| PKT_TRUST,
                        data := base + ESP_HEADER_LEN,
                        dsize := dsizeCast len lyr_len2 },
                 lyr_len := lyr_len2, next_prot_id := next_prot_id,
                 events := [], counts := counts }
      else
        some { ret := true,
               p := { p with
                      packet_flags := p.packet_flags ||| PKT_TRUST,
                      data := base + ESP_HEADER_LEN,
                      dsize := dsizeCast len lyr_len },
               lyr_len := lyr_len, next_prot_id := -1,
               events := [], counts := counts }
    | _, _ => none

/-- The `stats` hook from the source, as its caller observes it.  In the
source both vector parameters are declared **by value**
(`std::vector<PegCount> g_peg_counts, std::vector<const char*> g_peg_names`)
and the function returns `void`, so every mutation in the body (the
`memcpy` of `counts` over the local vector object and the `insert` of
`peg_names` into the local names vector) happens to local copies that are
destroyed on return: the caller's two vectors come back unchanged. -/
def stats (g_peg_counts : List PegCount) (g_peg_names : List String)
    (_counts : CdPegs) : List PegCount × List String :=
  (g_peg_counts, g_peg_names)

/-- The names the `stats` body appends to its (local, by-value) copy of the
names vector. -/
def stats_local_names (g_peg_names : List String) : List String :=
  g_peg_names ++ peg_names

/-! ### Concrete fixtures used by witnesses and counterexamples -/

/-- A registry that has a decoder exactly for protocol id 6 (TCP), with ESP
decoding enabled. -/
def envT : DecodeEnv := { espDecoding := true, hasCodec := fun i => i == 6 }

/-- An arbitrary incoming packet view (payload view pointing elsewhere,
some flags already set). -/
def p0 : Packet := { data := 1000, dsize := 77, packet_flags := 5 }

/-- Fresh peg counters. -/
def c0 : CdPegs := {}

/-- A 30-byte ESP buffer: 16 arbitrary bytes, then the byte that decode
reads as `pad_length` (absolute offset 16 = 30 - 14), then the byte read as
`next_prot_id` (absolute offset 17 = 30 - 13), then 12 trailing bytes. -/
def mkbuf (pad nb : Fin 256) : List (Fin 256) :=
  List.replicate 16 (0 : Fin 256) ++ [pad, nb] ++ List.replicate 12 0

/-- An environment with ESP decoding administratively disabled. -/
def envF : DecodeEnv := { espDecoding := false, hasCodec := fun _ => false }

/-- The result `decode` produces on the disabled path for the fixture
inputs: `false` with the packet, out-parameters and counters untouched. -/
def rF : DecodeResult :=
  { ret := false, p := p0, lyr_len := 0, next_prot_id := 0, events := [],
    counts := c0 }

/-- A 256-byte all-zero buffer: the shortest buffer whose length exceeds
every possible value of the single-byte `pad_length` field. -/
def buf256 : List (Fin 256) := List.replicate 256 0

/-! ### Theorems -/

/-- C3: with ESP decoding enabled and `len < 22`, decode emits the
"ESP header truncated" diagnostic exactly once (the event list of the call
is the one-element list), sets the packet's payload view to the whole
buffer (`data = raw_pkt`, `dsize = len`), and returns `false`. -/
theorem esp_decode_truncated (env : DecodeEnv) (base : Nat)
    (bytes : List (Fin 256)) (len : Nat) (p : Packet) (l0 : Nat) (n0 : Int)
    (c : CdPegs) (henv : env.espDecoding = true) (hlen : len < 22) :
    EspCodec.decode env base bytes len p l0 n0 c =
      some { ret := false, p := { p with data := base, dsize := len },
             lyr_len := l0, next_prot_id := n0,
             events := [CodecEvent.DECODE_ESP_HEADER_TRUNC], counts := c } := by
  have h65 : len % 65536 = len := Nat.mod_eq_of_lt (by omega)
  unfold EspCodec.decode
  rw [henv]
  simp [ESP_HEADER_LEN, ESP_AUTH_DATA_LEN, ESP_TRAILER_LEN, u16, h65]
  omega

/-- Witness for C3 at the concrete input `len = 5`. -/
theorem esp_decode_truncated_witness :
    EspCodec.decode envT 100 [] 5 p0 0 0 c0 =
      some { ret := false, p := { p0 with data := 100, dsize := 5 },
             lyr_len := 0, next_prot_id := 0,
             events := [CodecEvent.DECODE_ESP_HEADER_TRUNC], counts := c0 } :=
  esp_decode_truncated envT 100 [] 5 p0 0 0 c0 rfl (by decide)

/-- C6: the code declares the pegs `processed` and `discards` but
`EspCodec::decode` never increments either.  At the failing input
`len = 5` (truncation: the claim requires `discards` to go up by one) and
at a `len = 30` input that reaches the post-truncation steps (the claim
requires `processed` to go up), the counters come back exactly as they
went in. -/
theorem esp_decode_counters_untouched :
    ((EspCodec.decode envT 100 [] 5 p0 0 0 c0).map (fun r => r.counts))
        = some c0 ∧
    ((EspCodec.decode envT 100 (mkbuf 2 6) 30 p0 0 0 c0).map
        (fun r => r.counts)) = some c0 :=
  ⟨rfl, rfl⟩

/-- C8: the `stats` hook hands nothing back to its caller — its vector
parameters are by value, so the caller's vectors are unchanged — and the
names the body would have appended to its local copy are
"NameCodec_processed" / "NameCodec_discards", not "processed" /
"discards". -/
theorem stats_returns_nothing_to_caller :
    stats [] [] { processed := 3, discards := 1 } = ([], []) ∧
    stats_local_names [] ≠ ["processed", "discards"] := by
  refine ⟨rfl, ?_⟩
  decide

/-- C1 counterexample: at a 30-byte input with `pad_length = 20 < 30` and a
registered decoder for `next_protocol_id = 6`, the source computes
`dsize = (u_short)len - lyr_len = (30 - 42) mod 2^16 = 65524`, which is not
the claimed `length - (22 + pad_length) = 30 - 42 = -12`. -/
theorem esp_decodable_size_wraps_cex :
    ((EspCodec.decode envT 100 (mkbuf 20 6) 30 p0 0 0 c0).map
      (fun r => r.p.dsize)) = some 65524 ∧
    ((65524 : Int) ≠ 30 - (22 + 20)) := by
  refine ⟨rfl, by decide⟩

/-- C1 (amended): with decoding enabled, `len ≥ 22`, `pad_length < len`
(where `pad_length` is the byte at absolute offset `len - 14`) and a
decoder registered for the next-protocol byte at `len - 13`, `decode`
returns `true`, ORs in `PKT_TRUST`, reports `lyr_len = 22 + pad_length`,
and sets the payload view to start at `raw_pkt + 8` with
`dsize = ((len mod 2^16) - (22 + pad_length)) mod 2^16` (the C `uint16_t`
narrowing), which equals `len - (22 + pad_length)` whenever
`22 + pad_length ≤ len ≤ 65535`. -/
theorem esp_decode_decodable (env : DecodeEnv) (base : Nat)
    (bytes : List (Fin 256)) (len : Nat) (p : Packet) (l0 : Nat) (n0 : Int)
    (c : CdPegs) (pad nb : Fin 256)
    (henv : env.espDecoding = true) (hlen : 22 ≤ len)
    (hpad : bytes[len - 14]? = some pad)
    (hnb : bytes[len - 13]? = some nb)
    (hlt : (pad : Nat) < len)
    (hcodec : env.hasCodec ((nb : Nat) : Int) = true) :
    (EspCodec.decode env base bytes len p l0 n0 c =
      some { ret := true,
             p := { p with
                    packet_flags := p.packet_flags ||| PKT_TRUST,
                    data := base + 8,
                    dsize := dsizeCast len (22 + (pad : Nat)) },
             lyr_len := 22 + (pad : Nat), next_prot_id := ((nb : Nat) : Int),
             events := [], counts := c })
    ∧ (22 + (pad : Nat) ≤ len → len ≤ 65535 →
        dsizeCast len (22 + (pad : Nat)) = len - (22 + (pad : Nat))) := by
  constructor
  · unfold EspCodec.decode
    rw [henv]
    simp only [ESP_HEADER_LEN, ESP_AUTH_DATA_LEN, ESP_TRAILER_LEN]
    norm_num
    rw [if_neg (show ¬ len < 22 by omega),
        show 8 + len - 22 = len - 14 from by omega,
        show 8 + len + 1 - 22 = len - 13 from by omega, hpad, hnb]
    simp [hlt, hcodec]
  · intro h1 h2
    simp only [dsizeCast, u16]
    omega

/-- Witness for C1 at the 30-byte fixture with `pad_length = 2` and
next-protocol byte 6, for which `envT` has a decoder: consumed length is
24 and the payload view is `[108, 108 + 6)`. -/
theorem esp_decode_decodable_witness :
    (EspCodec.decode envT 100 (mkbuf 2 6) 30 p0 0 0 c0 =
      some { ret := true,
             p := { p0 with
                    packet_flags := p0.packet_flags ||| PKT_TRUST,
                    data := 100 + 8,
                    dsize := dsizeCast 30 (22 + ((2 : Fin 256) : Nat)) },
             lyr_len := 22 + ((2 : Fin 256) : Nat),
             next_prot_id := (((6 : Fin 256) : Nat) : Int),
             events := [], counts := c0 })
    ∧ (22 + ((2 : Fin 256) : Nat) ≤ 30 → 30 ≤ 65535 →
        dsizeCast 30 (22 + ((2 : Fin 256) : Nat))
          = 30 - (22 + ((2 : Fin 256) : Nat))) :=
  esp_decode_decodable envT 100 (mkbuf 2 6) 30 p0 0 0 c0 2 6 rfl (by decide)
    (by decide) (by decide) (by decide) (by decide)

/-- C2 counterexample: at a 30-byte input with `pad_length = 200 ≥ 30` the
source sets the payload view to `data = raw_pkt + 8 = 108` with
`dsize = 30 - 22 = 8`, so the view ends at byte address `116`, not at the
end of the buffer `100 + 30 = 130` as the claim's span
`[raw_bytes + 8, raw_bytes + length)` requires. -/
theorem esp_opaque_span_cex :
    ((EspCodec.decode envT 100 (mkbuf 200 6) 30 p0 0 0 c0).map
      (fun r => (r.p.data, r.p.dsize))) = some (108, 8) ∧
    (108 + 8 : Nat) ≠ 100 + 30 := by
  refine ⟨rfl, by decide⟩

/-- C2 (amended): with decoding enabled, `len ≥ 22` and
`pad_length ≥ len`, `decode` returns `true`, ORs in `PKT_TRUST`, reports
the next-protocol sentinel `-1`, and sets the payload view to start at
`raw_pkt + 8` with size `len - 22` (the span `[raw+8, raw+8+(len-22))`,
which stops `14` bytes short of the end of the buffer). -/
theorem esp_decode_opaque (env : DecodeEnv) (base : Nat)
    (bytes : List (Fin 256)) (len : Nat) (p : Packet) (l0 : Nat) (n0 : Int)
    (c : CdPegs) (pad nb : Fin 256)
    (henv : env.espDecoding = true) (hlen : 22 ≤ len)
    (hpad : bytes[len - 14]? = some pad)
    (hnb : bytes[len - 13]? = some nb)
    (hge : len ≤ (pad : Nat)) :
    EspCodec.decode env base bytes len p l0 n0 c =
      some { ret := true,
             p := { p with
                    packet_flags := p.packet_flags ||| PKT_TRUST,
                    data := base + 8, dsize := len - 22 },
             lyr_len := 22, next_prot_id := -1, events := [], counts := c } := by
  have h255 : (pad : Nat) < 256 := pad.isLt
  have hd : dsizeCast len 22 = len - 22 := by
    simp only [dsizeCast, u16]
    omega
  unfold EspCodec.decode
  rw [henv]
  simp only [ESP_HEADER_LEN, ESP_AUTH_DATA_LEN, ESP_TRAILER_LEN]
  norm_num
  rw [if_neg (show ¬ len < 22 by omega),
      show 8 + len - 22 = len - 14 from by omega,
      show 8 + len + 1 - 22 = len - 13 from by omega, hpad, hnb]
  have hnlt : ¬ ((pad : Nat) < len) := by omega
  simp [hnlt, hd]

/-- Witness for C2 at the spec's concrete scenario: a 30-byte buffer whose
pad byte (absolute offset 16) is 200 ≥ 30 yields the Opaque outcome with
payload view `[108, 116)` and sentinel `-1`. -/
theorem esp_decode_opaque_witness :
    EspCodec.decode envT 100 (mkbuf 200 6) 30 p0 0 0 c0 =
      some { ret := true,
             p := { p0 with
                    packet_flags := p0.packet_flags ||| PKT_TRUST,
                    data := 100 + 8, dsize := 30 - 22 },
             lyr_len := 22, next_prot_id := -1, events := [], counts := c0 } :=
  esp_decode_opaque envT 100 (mkbuf 200 6) 30 p0 0 0 c0 200 6 rfl (by decide)
    (by decide) (by decide) (by decide)

/-- C4: given a buffer that really holds `len` bytes, `decode` completes
(no out-of-bounds read), returns `false` exactly when ESP decoding is
disabled or `len < 22`, and on every `true` return the next-protocol
out-parameter is either a nonnegative protocol id or the sentinel `-1`. -/
theorem esp_decode_false_iff (env : DecodeEnv) (base : Nat)
    (bytes : List (Fin 256)) (len : Nat) (p : Packet) (l0 : Nat) (n0 : Int)
    (c : CdPegs) (hb : len ≤ bytes.length) :
    ∃ r, EspCodec.decode env base bytes len p l0 n0 c = some r ∧
      (r.ret = false ↔ (env.espDecoding = false ∨ len < 22)) ∧
      (r.ret = true → 0 ≤ r.next_prot_id ∨ r.next_prot_id = -1) := by
  unfold EspCodec.decode
  by_cases henv : env.espDecoding = false
  · rw [if_pos henv]
    exact ⟨_, rfl, by simp [henv], by simp⟩
  · rw [if_neg henv]
    by_cases hlen : len < ESP_HEADER_LEN + ESP_AUTH_DATA_LEN + ESP_TRAILER_LEN
    · rw [if_pos hlen]
      refine ⟨_, rfl, by simp [henv]; simp [ESP_HEADER_LEN, ESP_AUTH_DATA_LEN,
        ESP_TRAILER_LEN] at hlen; omega, by simp⟩
    · rw [if_neg hlen]
      simp only [ESP_HEADER_LEN, ESP_AUTH_DATA_LEN, ESP_TRAILER_LEN] at hlen ⊢
      have hlen22 : 22 ≤ len := by omega
      have h14 : len - 14 < bytes.length := by omega
      have h13 : len - 13 < bytes.length := by omega
      norm_num
      rw [show 8 + len - 22 = len - 14 from by omega,
          show 8 + len + 1 - 22 = len - 13 from by omega,
          List.getElem?_eq_getElem h14, List.getElem?_eq_getElem h13]
      by_cases hlt : (bytes[len - 14] : Nat) < len
      · by_cases hcodec : env.hasCodec ((bytes[len - 13] : Nat) : Int) = false
        · simp only [hlt, if_true, hcodec, if_true]
          refine ⟨_, rfl, by simp [henv]; omega, by simp⟩
        · simp only [hlt, if_true, hcodec, if_false]
          refine ⟨_, rfl, by simp [henv]; omega, by simp⟩
      · simp only [hlt, if_false]
        refine ⟨_, rfl, by simp [henv]; omega, by simp⟩

/-- Witness for C4 at the 30-byte decodable fixture. -/
theorem esp_decode_false_iff_witness :
    ∃ r, EspCodec.decode envT 100 (mkbuf 2 6) 30 p0 0 0 c0 = some r ∧
      (r.ret = false ↔ (envT.espDecoding = false ∨ 30 < 22)) ∧
      (r.ret = true → 0 ≤ r.next_prot_id ∨ r.next_prot_id = -1) :=
  esp_decode_false_iff envT 100 (mkbuf 2 6) 30 p0 0 0 c0 (by decide)

/-- C5: with decoding enabled, `len ≥ 22`, `pad_length < len` and no
decoder registered for the next-protocol byte, `decode` ORs in
`PKT_UNSURE_ENCAP`, leaves the payload view (`data`, `dsize`) exactly as
it was before the call, and still returns `true` with consumed length
`22 + pad_length`. -/
theorem esp_decode_ambiguous (env : DecodeEnv) (base : Nat)
    (bytes : List (Fin 256)) (len : Nat) (p : Packet) (l0 : Nat) (n0 : Int)
    (c : CdPegs) (pad nb : Fin 256)
    (henv : env.espDecoding = true) (hlen : 22 ≤ len)
    (hpad : bytes[len - 14]? = some pad)
    (hnb : bytes[len - 13]? = some nb)
    (hlt : (pad : Nat) < len)
    (hcodec : env.hasCodec ((nb : Nat) : Int) = false) :
    EspCodec.decode env base bytes len p l0 n0 c =
      some { ret := true,
             p := { p with packet_flags := p.packet_flags ||| PKT_UNSURE_ENCAP },
             lyr_len := 22 + (pad : Nat), next_prot_id := ((nb : Nat) : Int),
             events := [], counts := c } := by
  unfold EspCodec.decode
  rw [henv]
  simp only [ESP_HEADER_LEN, ESP_AUTH_DATA_LEN, ESP_TRAILER_LEN]
  norm_num
  rw [if_neg (show ¬ len < 22 by omega),
      show 8 + len - 22 = len - 14 from by omega,
      show 8 + len + 1 - 22 = len - 13 from by omega, hpad, hnb]
  simp [hlt, hcodec]

/-- Witness for C5: pad byte 2, next-protocol byte 7 for which `envT`
has no decoder; the returned packet keeps `data = 1000`, `dsize = 77`. -/
theorem esp_decode_ambiguous_witness :
    EspCodec.decode envT 100 (mkbuf 2 7) 30 p0 0 0 c0 =
      some { ret := true,
             p := { p0 with
                    packet_flags := p0.packet_flags ||| PKT_UNSURE_ENCAP },
             lyr_len := 22 + ((2 : Fin 256) : Nat),
             next_prot_id := (((7 : Fin 256) : Nat) : Int),
             events := [], counts := c0 } :=
  esp_decode_ambiguous envT 100 (mkbuf 2 7) 30 p0 0 0 c0 2 7 rfl (by decide)
    (by decide) (by decide) (by decide) (by decide)

/-- C7: for `len ≥ 22` and a buffer holding at least `len` bytes, the two
tail reads land at absolute offsets `len - 14` and `len - 13`, both
strictly inside `[0, len)`, both in bounds of the buffer, and `decode`
never reaches the fail-closed out-of-bounds branch (it always returns
`some`). -/
theorem esp_tail_reads_in_bounds (env : DecodeEnv) (base : Nat)
    (bytes : List (Fin 256)) (len : Nat) (p : Packet) (l0 : Nat) (n0 : Int)
    (c : CdPegs) (hlen : 22 ≤ len) (hb : len ≤ bytes.length) :
    8 + len - 22 = len - 14 ∧ 8 + len + 1 - 22 = len - 13 ∧
    len - 14 < len ∧ len - 13 < len ∧
    (bytes[len - 14]?).isSome = true ∧ (bytes[len - 13]?).isSome = true ∧
    (EspCodec.decode env base bytes len p l0 n0 c).isSome = true := by
  have h14 : len - 14 < bytes.length := by omega
  have h13 : len - 13 < bytes.length := by omega
  refine ⟨by omega, by omega, by omega, by omega,
    by rw [List.getElem?_eq_getElem h14]; rfl,
    by rw [List.getElem?_eq_getElem h13]; rfl, ?_⟩
  unfold EspCodec.decode
  by_cases henv : env.espDecoding = false
  · rw [if_pos henv]; rfl
  · rw [if_neg henv,
        if_neg (show ¬ len < ESP_HEADER_LEN + ESP_AUTH_DATA_LEN + ESP_TRAILER_LEN by
          simp only [ESP_HEADER_LEN, ESP_AUTH_DATA_LEN, ESP_TRAILER_LEN]; omega)]
    simp only [ESP_HEADER_LEN, ESP_AUTH_DATA_LEN, ESP_TRAILER_LEN]
    norm_num
    rw [show 8 + len - 22 = len - 14 from by omega,
        show 8 + len + 1 - 22 = len - 13 from by omega,
        List.getElem?_eq_getElem h14, List.getElem?_eq_getElem h13]
    by_cases hlt : (bytes[len - 14] : Nat) < len
    · by_cases hcodec : env.hasCodec ((bytes[len - 13] : Nat) : Int) = false
      · simp [hlt, hcodec]
      · simp [hlt, hcodec]
    · simp [hlt]

/-- Witness for C7 at the 30-byte fixture: offsets 16 and 17 are inside
`[0, 30)` and the call completes. -/
theorem esp_tail_reads_in_bounds_witness :
    8 + 30 - 22 = 30 - 14 ∧ 8 + 30 + 1 - 22 = 30 - 13 ∧
    30 - 14 < 30 ∧ 30 - 13 < 30 ∧
    ((mkbuf 2 6)[30 - 14]?).isSome = true ∧
    ((mkbuf 2 6)[30 - 13]?).isSome = true ∧
    (EspCodec.decode envT 100 (mkbuf 2 6) 30 p0 0 0 c0).isSome = true :=
  esp_tail_reads_in_bounds envT 100 (mkbuf 2 6) 30 p0 0 0 c0 (by decide)
    (by decide)

/-- C9: whenever `len ≥ 256`, the single-byte `pad_length` is necessarily
smaller than `len`, so no completed call can produce the Opaque outcome
(a `true` return with the next-protocol sentinel `-1`): the heuristic can
classify a packet as opaque only when `len ≤ 255`. -/
theorem esp_opaque_needs_small_len (env : DecodeEnv) (base : Nat)
    (bytes : List (Fin 256)) (len : Nat) (p : Packet) (l0 : Nat) (n0 : Int)
    (c : CdPegs) (h256 : 256 ≤ len) :
    ((EspCodec.decode env base bytes len p l0 n0 c).all
      (fun r => !(r.ret && r.next_prot_id == -1))) = true := by
  unfold EspCodec.decode
  by_cases henv : env.espDecoding = false
  · simp [henv]
  · rw [if_neg henv]
    by_cases hlen : len < ESP_HEADER_LEN + ESP_AUTH_DATA_LEN + ESP_TRAILER_LEN
    · simp [hlen]
    · rw [if_neg hlen]
      simp only [ESP_HEADER_LEN, ESP_AUTH_DATA_LEN, ESP_TRAILER_LEN]
      norm_num
      rcases hp : bytes[8 + len - 22]? with _ | pad
      · simp [hp]
      · rcases hq : bytes[8 + len + 1 - 22]? with _ | nb
        · simp [hp, hq]
        · have hlt : (pad : Nat) < len := by have := pad.isLt; omega
          by_cases hc : env.hasCodec ((nb : Nat) : Int) = false
          · simp [hp, hq, hlt, hc, Option.all]
          · simp [hp, hq, hlt, hc, Option.all]

/-- Witness for C9 at a 256-byte all-zero buffer. -/
theorem esp_opaque_needs_small_len_witness :
    ((EspCodec.decode envT 100 buf256 256 p0 0 0 c0).all
      (fun r => !(r.ret && r.next_prot_id == -1))) = true :=
  esp_opaque_needs_small_len envT 100 buf256 256 p0 0 0 c0 (by decide)

/-- C10: every completed call changes `packet_flags` only by OR-ing in a
mask that is empty, `PKT_TRUST`, or `PKT_UNSURE_ENCAP` — never both flags
in one call — so every flag bit set before the call is still set after
it. -/
theorem esp_decode_flags_monotone (env : DecodeEnv) (base : Nat)
    (bytes : List (Fin 256)) (len : Nat) (p : Packet) (l0 : Nat) (n0 : Int)
    (c : CdPegs) (r : DecodeResult)
    (hr : EspCodec.decode env base bytes len p l0 n0 c = some r) :
    ∃ m, r.p.packet_flags = p.packet_flags ||| m ∧
      (m = 0 ∨ m = PKT_TRUST ∨ m = PKT_UNSURE_ENCAP) ∧
      (∀ i, p.packet_flags.testBit i = true →
        r.p.packet_flags.testBit i = true) := by
  have key : r.p.packet_flags = p.packet_flags ∨
      r.p.packet_flags = p.packet_flags ||| PKT_TRUST ∨
      r.p.packet_flags = p.packet_flags ||| PKT_UNSURE_ENCAP := by
    unfold EspCodec.decode at hr
    by_cases henv : env.espDecoding = false
    · rw [if_pos henv] at hr
      injection hr with h
      subst h
      left; rfl
    · rw [if_neg henv] at hr
      by_cases hlen : len < ESP_HEADER_LEN + ESP_AUTH_DATA_LEN + ESP_TRAILER_LEN
      · rw [if_pos hlen] at hr
        injection hr with h
        subst h
        left; rfl
      · rw [if_neg hlen] at hr
        simp only [ESP_HEADER_LEN, ESP_AUTH_DATA_LEN, ESP_TRAILER_LEN] at hr
        norm_num at hr
        rw [show 8 + len + 1 - 22 = 8 + len - 21 from by omega] at hr
        rcases hp : bytes[8 + len - 22]? with _ | pad
        · simp [hp] at hr
        · rcases hq : bytes[8 + len - 21]? with _ | nb
          · simp [hp, hq] at hr
          · rw [hp, hq] at hr
            simp only [] at hr
            by_cases hlt : (pad : Nat) < len
            · by_cases hc : env.hasCodec ((nb : Nat) : Int) = false
              · simp only [hlt, if_true, hc] at hr
                injection hr with h
                subst h
                right; right; rfl
              · simp only [hlt, if_true, hc, if_false] at hr
                injection hr with h
                subst h
                right; left; rfl
            · simp only [hlt, if_false] at hr
              injection hr with h
              subst h
              right; left; rfl
  rcases key with h | h | h
  · exact ⟨0, by simpa using h, Or.inl rfl,
      fun i hi => by rw [h]; exact hi⟩
  · exact ⟨PKT_TRUST, h, Or.inr (Or.inl rfl),
      fun i hi => by rw [h]; simp [Nat.testBit_lor, hi]⟩
  · exact ⟨PKT_UNSURE_ENCAP, h, Or.inr (Or.inr rfl),
      fun i hi => by rw [h]; simp [Nat.testBit_lor, hi]⟩

/-- Witness for C10 on the disabled path with flag word 5 already set:
the empty mask is OR-ed in and every set bit survives. -/
theorem esp_decode_flags_monotone_witness :
    ∃ m, rF.p.packet_flags = p0.packet_flags ||| m ∧
      (m = 0 ∨ m = PKT_TRUST ∨ m = PKT_UNSURE_ENCAP) ∧
      (∀ i, p0.packet_flags.testBit i = true →
        rF.p.packet_flags.testBit i = true) :=
  esp_decode_flags_monotone envF 100 [] 0 p0 0 0 c0 rF rfl
